import Mathlib

/- Shallow embedding of src/AO3/session.py (bryn-curran/ao3_api).

   HTML pages are modelled by the data the code extracts from them: anchor
   elements (rel flag, href, text), the pagination control as the list of
   texts of its li elements, and the subscription or bookmark container as
   the list of its entries (each entry being its list of anchors).  HTTP
   responses carry a numeric status code.  Python exceptions are modelled
   by an error type; mutation of the session object is modelled by explicit
   state passing; and every paginated operation additionally returns the
   list of listing-page indices it fetched (its fetch trace).  Threaded
   loading (use_threading=True) is out of scope: the claims below concern
   the sequential paths only. -/

/-- Errors raised by the code: utils.HTTPError (the 429 rate-limit error),
utils.LoginError, utils.UnexpectedResponseError, and the Python built-in
TypeError, NameError, AttributeError and ValueError exceptions. -/
inductive Err
  | httpError
  | loginError
  | unexpectedResponseError
  | typeError
  | nameError
  | attributeError
  | valueError
  deriving DecidableEq

/-- An anchor element as consumed by the scraper: whether the rel attribute
is present, whether the rel value contains author, the href attribute, and
the anchor text (a.string, modelled as a plain string). -/
structure Anchor where
  hasRel : Bool
  relAuthor : Bool
  href : String
  text : String
  deriving DecidableEq

/-- A subscription entry (a dt element) or a bookmark blurb (the anchors of
its h4 element) is, as far as the scraper reads it, its list of anchors. -/
abbrev Dt := List Anchor

/-- A listing reference built by the aggregator: Work(workid, load=False)
with title and authors set afterwards, Series(id, load=False) with name and
authors set afterwards, or User(name, load=False).  The work id slot is an
Option because the local variable workid in _load_subscriptions starts as
None and is only assigned when a works link is seen. -/
inductive Entry
  | work (id : Option Nat) (title : Option String) (authors : List String)
  | series (id : Int) (name : Option String) (authors : List String)
  | user (name : String)
  deriving DecidableEq

def Entry.isWork : Entry → Bool
  | .work _ _ _ => true
  | _ => false

def Entry.isSeries : Entry → Bool
  | .series _ _ _ => true
  | _ => false

def Entry.isUser : Entry → Bool
  | .user _ => true
  | _ => false

/-- The identity field of a listing reference is set: a work carries a
non-null work id; series ids and usernames are assigned together with the
classification, hence always present. -/
def Entry.hasIdentity : Entry → Bool
  | .work id _ _ => id.isSome
  | .series _ _ _ => true
  | .user _ => true

/-- Modelled from the spec: the entity equality operator used by the
bookmark dedup check (Work.__eq__ and friends live in the entity modules,
which are not under src/) compares entities by their identity fields
(the spec: deduplicate by identity equality). -/
def entryEq : Entry → Entry → Bool
  | .work i _ _, .work j _ _ => i == j
  | .series i _ _, .series j _ _ => i == j
  | .user n, .user m => n == m
  | _, _ => false

/-- Python str.split on the slash character: a works path becomes the
segments empty, works, id. -/
def splitSlash : List Char → List (List Char)
  | [] => [[]]
  | c :: cs =>
    let r := splitSlash cs
    if c = '/' then [] :: r
    else
      match r with
      | [] => [[c]]
      | seg :: rest => (c :: seg) :: rest

/-- Python str.isdigit composed with int(): some value exactly when the
character list is nonempty and all decimal digits. -/
def digitsToNat : List Char → Option Nat
  | [] => none
  | cs => go cs 0
where
  go : List Char → Nat → Option Nat
    | [], acc => some acc
    | c :: cs, acc =>
      if c.isDigit then go cs (acc * 10 + (c.toNat - 48)) else none

/-- Python int() on a possibly negative literal, as used for the series id
(int of the last path segment of the series link). -/
def intOfChars : List Char → Option Int
  | '-' :: cs => (digitsToNat cs).map (fun n => -(n : Int))
  | cs => (digitsToNat cs).map (fun n => (n : Int))

/-- Python str.startswith. -/
def prefixChars : List Char → List Char → Bool
  | [], _ => true
  | _ :: _, [] => false
  | p :: ps, c :: cs => p == c && prefixChars ps cs

def strStartsWith (s pat : String) : Bool :=
  prefixChars pat.data s.data

/-- Modelled from the spec: utils.workid_from_url (defined in utils.py,
which is not under src/) parses the work id out of a works URL.  Per the
spec a work listing reference carries a numeric identifier taken from the
work link, so this reads the path segment that follows the works segment
as a number. -/
def workid_from_url (url : String) : Nat :=
  match (splitSlash url.data).dropWhile (fun s => s ≠ ("works").data) with
  | _ :: seg :: _ => (digitsToNat seg).getD 0
  | _ => 0

/-- The classification state of the per-entry loop in _load_subscriptions:
type_ starts as work and is switched to user or series together with the
data those assignments carry; workid, workname and authors are the other
loop locals. -/
inductive ScanKind
  | work
  | user (u : String)
  | series (sid : Int)
  deriving DecidableEq

structure SubScan where
  kind : ScanKind
  workid : Option Nat
  workname : Option String
  authors : List String
  deriving DecidableEq

/-- Loop-local initial values in _load_subscriptions: type_ = work,
user = series = workid = workname = None, authors = []. -/
def initScan : SubScan :=
  { kind := ScanKind.work, workid := none, workname := none, authors := [] }

def lastSegment (url : String) : List Char :=
  (splitSlash url.data).getLastD []

/-- One anchor of a subscription dt, as classified by the body of the
for-a-in-sub.find_all loop of _load_subscriptions.  An anchor with a rel
attribute contributes an author when the rel contains author and is
otherwise skipped; otherwise a works href records workname/workid, a users
href switches the classification to user, and any other href switches it
to series, parsing the last path segment as the series id (int() raising
ValueError when it is not numeric). -/
def scanAnchor (st : SubScan) (a : Anchor) : Except Err SubScan :=
  if a.hasRel then
    if a.relAuthor then Except.ok { st with authors := st.authors ++ [a.text] }
    else Except.ok st
  else if strStartsWith a.href ("/works") then
    Except.ok { st with workname := some a.text, workid := some (workid_from_url a.href) }
  else if strStartsWith a.href ("/users") then
    Except.ok { st with kind := ScanKind.user a.text }
  else
    match intOfChars (lastSegment a.href) with
    | some k => Except.ok { st with kind := ScanKind.series k, workname := some a.text }
    | none => Except.error Err.valueError

def scanAnchors (st : SubScan) : List Anchor → Except Err SubScan
  | [] => Except.ok st
  | a :: rest =>
    match scanAnchor st a with
    | Except.error e => Except.error e
    | Except.ok st2 => scanAnchors st2 rest

/-- The entry appended for a fully scanned dt: a Work with the recorded
(possibly still None) workid, a User, or a Series. -/
def emitEntry (st : SubScan) : Entry :=
  match st.kind with
  | ScanKind.work => Entry.work st.workid st.workname st.authors
  | ScanKind.user u => Entry.user u
  | ScanKind.series sid => Entry.series sid st.workname st.authors

/-- The dt loop of _load_subscriptions: every dt appends exactly one entry
to the aggregate (no dedup); a ValueError raised while scanning a dt
aborts the loop, keeping the entries appended so far. -/
def processDts (cur : List Entry) : List Dt → Option Err × List Entry
  | [] => (none, cur)
  | dt :: dts =>
    match scanAnchors initScan dt with
    | Except.error e => (some e, cur)
    | Except.ok st => processDts (cur ++ [emitEntry st]) dts

/-- The function-local state of _load_bookmarks: workid and workname are
plain locals of the function, so they persist from one bookmark blurb to
the next within a single page load; authors is re-initialised per blurb. -/
structure BkScan where
  workid : Option Nat
  workname : Option String
  authors : List String
  deriving DecidableEq

/-- One anchor of a bookmark blurb h4: rel-author anchors accumulate
authors, works hrefs record workname/workid, anything else is ignored. -/
def scanBkAnchor (st : BkScan) (a : Anchor) : BkScan :=
  if a.hasRel then
    if a.relAuthor then { st with authors := st.authors ++ [a.text] }
    else st
  else if strStartsWith a.href ("/works") then
    { st with workname := some a.text, workid := some (workid_from_url a.href) }
  else st

def scanBkAnchors (st : BkScan) : List Anchor → BkScan
  | [] => st
  | a :: rest => scanBkAnchors (scanBkAnchor st a) rest

/-- The blurb loop of _load_bookmarks.  Per blurb: scan the h4 anchors
(with authors reset, workid/workname carried over from the previous
blurb), then build Work(workid); if workid was never assigned in this
call the Python code raises NameError.  The entry is appended only when
no entry equal to it (entity equality) is already in the aggregate.  The
third component counts the entries the dedup check skipped. -/
def processLis (cur : List Entry) (wid : Option Nat) (wname : Option String) :
    List Dt → Option Err × List Entry × Nat
  | [] => (none, cur, 0)
  | li :: lis =>
    let st := scanBkAnchors { workid := wid, workname := wname, authors := [] } li
    match st.workid with
    | none => (some Err.nameError, cur, 0)
    | some w =>
      let new := Entry.work (some w) st.workname st.authors
      if cur.any (entryEq new) then
        let r := processLis cur st.workid st.workname lis
        (r.1, r.2.1, r.2.2 + 1)
      else
        processLis (cur ++ [new]) st.workid st.workname lis

/-- The scan of the pagination li texts in _subscription_pages and
_bookmark_pages: n starts at 1 and each li text passing str.isdigit
overwrites it with its int() value. -/
def pageCountScan (n : Nat) : List String → Nat
  | [] => n
  | t :: ts =>
    pageCountScan
      (match digitsToNat t.data with
       | some v => v
       | none => n) ts

/-- Page-count resolution from a fetched first page: when no pagination
control is present the listing has exactly one page, otherwise the li
texts are scanned. -/
def pageCountOf (pagination : Option (List String)) : Nat :=
  match pagination with
  | none => 1
  | some lis => pageCountScan 1 lis

/-- A fetched listing page: HTTP status, the pagination control (the li
texts, absent when the control is missing) and the entry container (the
dl or ol entry list, absent when the container element is missing). -/
structure PageResponse where
  status : Nat
  pagination : Option (List String)
  container : Option (List Dt)
  deriving DecidableEq

/-- The mutable attributes of a GuestSession / Session object: the three
cached_property slots (_subscription_pages, _bookmark_pages, bookmarks)
are present in the instance dict only once computed, modelled as Options;
_subscriptions and _bookmarks are None until loaded. -/
structure SessionState where
  is_authed : Bool
  authenticity_token : Option String
  username : String
  subscription_pages_cache : Option Nat
  bookmark_pages_cache : Option Nat
  bookmarks_count_cache : Option Nat
  subscriptions_attr : Option (List Entry)
  bookmarks_attr : Option (List Entry)
  deriving DecidableEq

/-- Session.clear_cache: delete every cached_property value stored on the
instance (the class declares three: _subscription_pages, _bookmark_pages
and bookmarks) and set _bookmarks and _subscriptions back to None. -/
def clear_cache (s : SessionState) : SessionState :=
  { s with
    subscription_pages_cache := none
    bookmark_pages_cache := none
    bookmarks_count_cache := none
    subscriptions_attr := none
    bookmarks_attr := none }

/-- The cached_property _subscription_pages: on a cache hit nothing is
fetched; otherwise page 1 of the listing is fetched (self.get raising the
rate-limit HTTPError on status 429, in which case the cache stays empty)
and the pagination control is scanned. -/
def resolve_subscription_pages (site : Nat → PageResponse) (s : SessionState) :
    Except Err Nat × SessionState × List Nat :=
  match s.subscription_pages_cache with
  | some n => (Except.ok n, s, [])
  | none =>
    let r := site 1
    if r.status == 429 then (Except.error Err.httpError, s, [1])
    else
      let n := pageCountOf r.pagination
      (Except.ok n, { s with subscription_pages_cache := some n }, [1])

/-- The cached_property _bookmark_pages, identical in shape. -/
def resolve_bookmark_pages (site : Nat → PageResponse) (s : SessionState) :
    Except Err Nat × SessionState × List Nat :=
  match s.bookmark_pages_cache with
  | some n => (Except.ok n, s, [])
  | none =>
    let r := site 1
    if r.status == 429 then (Except.error Err.httpError, s, [1])
    else
      let n := pageCountOf r.pagination
      (Except.ok n, { s with bookmark_pages_cache := some n }, [1])

/-- _load_subscriptions(page): fetch the page (429 raising the rate-limit
error before anything is parsed), find the subscription container
(AttributeError when absent), then run the dt loop, its appends mutating
self._subscriptions in place (None.append would also be an
AttributeError). -/
def load_subscriptions_page (site : Nat → PageResponse) (s : SessionState)
    (page : Nat) : Option Err × SessionState :=
  let r := site page
  if r.status == 429 then (some Err.httpError, s)
  else
    match r.container with
    | none => (some Err.attributeError, s)
    | some dts =>
      match s.subscriptions_attr with
      | none => (some Err.attributeError, s)
      | some cur =>
        let res := processDts cur dts
        (res.1, { s with subscriptions_attr := some res.2 })

/-- _load_bookmarks(page): same shape, with the blurb loop and its dedup
check mutating self._bookmarks. -/
def load_bookmarks_page (site : Nat → PageResponse) (s : SessionState)
    (page : Nat) : Option Err × SessionState :=
  let r := site page
  if r.status == 429 then (some Err.httpError, s)
  else
    match r.container with
    | none => (some Err.attributeError, s)
    | some lis =>
      match s.bookmarks_attr with
      | none => (some Err.attributeError, s)
      | some cur =>
        let res := processLis cur none none lis
        (res.1, { s with bookmarks_attr := some res.2.1 })

/-- The sequential page loop, for page+1 in range(n): load pages start,
start+1, ... until count pages are done or a load raises; the trace
records the page indices attempted. -/
def loadPages (load : SessionState → Nat → Option Err × SessionState)
    (s : SessionState) (start : Nat) : Nat → Option Err × SessionState × List Nat
  | 0 => (none, s, [])
  | count + 1 =>
    match load s start with
    | (some e, s2) => (some e, s2, [start])
    | (none, s2) =>
      let r := loadPages load s2 (start + 1) count
      (r.1, r.2.1, start :: r.2.2)

/-- Session.get_subscriptions with use_threading=False: on a cache hit the
stored list is returned with no fetching; otherwise self._subscriptions
is first reset to [], then range(self._subscription_pages) forces the
page-count cached_property, then each page is loaded sequentially. -/
def get_subscriptions (site : Nat → PageResponse) (s : SessionState) :
    Except Err (List Entry) × SessionState × List Nat :=
  match s.subscriptions_attr with
  | some subs => (Except.ok subs, s, [])
  | none =>
    let s1 := { s with subscriptions_attr := some [] }
    match resolve_subscription_pages site s1 with
    | (Except.error e, s2, tr) => (Except.error e, s2, tr)
    | (Except.ok n, s2, tr) =>
      let r := loadPages (load_subscriptions_page site) s2 1 n
      match r.1 with
      | some e => (Except.error e, r.2.1, tr ++ r.2.2)
      | none => (Except.ok (r.2.1.subscriptions_attr.getD []), r.2.1, tr ++ r.2.2)

/-- Session.get_bookmarks with use_threading=False, identical in shape. -/
def get_bookmarks (site : Nat → PageResponse) (s : SessionState) :
    Except Err (List Entry) × SessionState × List Nat :=
  match s.bookmarks_attr with
  | some bks => (Except.ok bks, s, [])
  | none =>
    let s1 := { s with bookmarks_attr := some [] }
    match resolve_bookmark_pages site s1 with
    | (Except.error e, s2, tr) => (Except.error e, s2, tr)
    | (Except.ok n, s2, tr) =>
      let r := loadPages (load_bookmarks_page site) s2 1 n
      match r.1 with
      | some e => (Except.error e, r.2.1, tr ++ r.2.2)
      | none => (Except.ok (r.2.1.bookmarks_attr.getD []), r.2.1, tr ++ r.2.2)

/-- Session.get_work_subscriptions: get_subscriptions filtered to Work
entries. -/
def get_work_subscriptions (site : Nat → PageResponse) (s : SessionState) :
    Except Err (List Entry) × SessionState × List Nat :=
  match get_subscriptions site s with
  | (Except.ok subs, s2, tr) => (Except.ok (subs.filter Entry.isWork), s2, tr)
  | (Except.error e, s2, tr) => (Except.error e, s2, tr)

/-- Session.get_series_subscriptions: get_subscriptions filtered to Series
entries. -/
def get_series_subscriptions (site : Nat → PageResponse) (s : SessionState) :
    Except Err (List Entry) × SessionState × List Nat :=
  match get_subscriptions site s with
  | (Except.ok subs, s2, tr) => (Except.ok (subs.filter Entry.isSeries), s2, tr)
  | (Except.error e, s2, tr) => (Except.error e, s2, tr)

/-- Session.get_user_subscriptions: get_subscriptions filtered to User
entries. -/
def get_user_subscriptions (site : Nat → PageResponse) (s : SessionState) :
    Except Err (List Entry) × SessionState × List Nat :=
  match get_subscriptions site s with
  | (Except.ok subs, s2, tr) => (Except.ok (subs.filter Entry.isUser), s2, tr)
  | (Except.error e, s2, tr) => (Except.error e, s2, tr)

/-- A token-bearing page fetch as seen by refresh_auth_token: a status and
the value of the authenticity_token input field when one was found. -/
structure TokenResponse where
  status : Nat
  token : Option String
  deriving DecidableEq

/-- The URL GuestSession.refresh_auth_token fetches: the profile page of
the session user when the session is authenticated, the anonymous landing
page otherwise. -/
def refresh_url (s : SessionState) : String :=
  if s.is_authed then String.append ("https://archiveofourown.org/users/") s.username
  else ("https://archiveofourown.org")

/-- GuestSession.refresh_auth_token: fetch the token-bearing page (status
429 raising the rate-limit error), raise UnexpectedResponseError when no
authenticity_token input is found, otherwise store the token value. -/
def refresh_auth_token (site : String → TokenResponse) (s : SessionState) :
    Except Err SessionState :=
  let r := site (refresh_url s)
  if r.status == 429 then Except.error Err.httpError
  else
    match r.token with
    | none => Except.error Err.unexpectedResponseError
    | some t => Except.ok { s with authenticity_token := some t }

/-- The session state produced by a successful Session.__init__. -/
def authedState (username tok : String) : SessionState :=
  { is_authed := true
    authenticity_token := some tok
    username := username
    subscription_pages_cache := none
    bookmark_pages_cache := none
    bookmarks_count_cache := none
    subscriptions_attr := none
    bookmarks_attr := none }

/-- Session.__init__(username, password): fetch the login page through
self.request (status 429 raising the rate-limit error); subscripting the
result of soup.find for the authenticity_token input raises TypeError when
the input is absent; then POST the credentials with redirects disabled
(self.post raising the rate-limit error on 429) and raise LoginError on
any POST status other than 302.  On success the session is authenticated,
holds the parsed token, and has empty caches.  The password only feeds the
POST payload, which is not modelled. -/
def session_init (username : String) (_password : String)
    (loginPageStatus : Nat) (loginPageToken : Option String)
    (postStatus : Nat) : Except Err SessionState :=
  if loginPageStatus == 429 then Except.error Err.httpError
  else
    match loginPageToken with
    | none => Except.error Err.typeError
    | some tok =>
      if postStatus == 429 then Except.error Err.httpError
      else if postStatus == 302 then Except.ok (authedState username tok)
      else Except.error Err.loginError

/-- The entry a dt produces when its anchor scan succeeds; used to state
the no-dedup law and the aggregate contents for subscriptions. -/
def emitOf (dt : Dt) : Entry :=
  match scanAnchors initScan dt with
  | Except.ok st => emitEntry st
  | Except.error _ => Entry.user ("")

/-- The entries a subscription listing page contributes. -/
def subPageEntries (site : Nat → PageResponse) (p : Nat) : List Entry :=
  ((site p).container.getD []).map emitOf

/-- The state transformation of one successful subscription page load. -/
def subStep (site : Nat → PageResponse) (s : SessionState) (p : Nat) : SessionState :=
  { s with subscriptions_attr := some ((s.subscriptions_attr.getD []) ++ subPageEntries site p) }

/-- A subscription listing page that loads without an exception: not rate
limited, container present, every dt scan succeeds. -/
def subPageOkB (r : PageResponse) : Bool :=
  r.status != 429 && r.container.isSome &&
    (r.container.getD []).all (fun dt => (scanAnchors initScan dt).isOk)

/-- The state transformation of one successful bookmark page load. -/
def bkStep (site : Nat → PageResponse) (s : SessionState) (p : Nat) : SessionState :=
  { s with bookmarks_attr := some ((processLis (s.bookmarks_attr.getD []) none none ((site p).container.getD [])).2.1) }

/-- A bookmark listing page that loads without an exception: not rate
limited, container present, the blurb loop raises no NameError. -/
def bkPageOkB (r : PageResponse) : Bool :=
  r.status != 429 && r.container.isSome &&
    ((processLis [] none none (r.container.getD [])).1).isNone

/-- Reference run of the bookmark aggregation over a list of pages: the
final aggregate and the total number of entries the dedup check
skipped. -/
def bkRun (site : Nat → PageResponse) : List Nat → List Entry → List Entry × Nat
  | [], acc => (acc, 0)
  | p :: ps, acc =>
    let r := processLis acc none none ((site p).container.getD [])
    let rest := bkRun site ps r.2.1
    (rest.1, r.2.2 + rest.2)

/-- A scan state that will emit an entry with its identity set: whenever
the classification is still work, a work id has been recorded. -/
def goodScan (st : SubScan) : Bool :=
  match st.kind with
  | ScanKind.work => st.workid.isSome
  | ScanKind.user _ => true
  | ScanKind.series _ => true

/-- Concrete fixtures for the closed theorems below. -/
def aWork : Anchor := { hasRel := false, relAuthor := false, href := "/works/123", text := "T" }

def aAuthor : Anchor := { hasRel := true, relAuthor := true, href := "/users/bob", text := "Bob" }

def aUser : Anchor := { hasRel := false, relAuthor := false, href := "/users/alice", text := "alice" }

def aSeries : Anchor := { hasRel := false, relAuthor := false, href := "/series/77", text := "S" }

def baseState : SessionState := authedState ("u") ("t")

def siteRate : Nat → PageResponse := fun _ =>
  { status := 429, pagination := none, container := none }

def siteSub : Nat → PageResponse := fun _ =>
  { status := 200, pagination := some ["2"], container := some [[aWork, aAuthor], [aUser]] }

def siteBk : Nat → PageResponse := fun _ =>
  { status := 200, pagination := some ["2"], container := some [[aWork, aAuthor]] }

def siteZero : Nat → PageResponse := fun _ =>
  { status := 200, pagination := some ["0"], container := none }

def siteEmptyDt : Nat → PageResponse := fun _ =>
  { status := 200, pagination := none, container := some [[]] }

def tokenSiteNone : String → TokenResponse := fun _ =>
  { status := 200, token := none }

def subReady (n : Nat) : SessionState :=
  { baseState with subscription_pages_cache := some n }

def bkReady (n : Nat) : SessionState :=
  { baseState with bookmark_pages_cache := some n }

def loadedState : SessionState :=
  { baseState with subscriptions_attr := some [Entry.work (some 1) none [], Entry.user ("a")] }

def stateEmptySubs : SessionState :=
  { baseState with subscriptions_attr := some [] }

/-- The page-count scan never drops below 1 when every all-digit li text
has a positive value. -/
theorem pageCountScan_pos (lis : List String) :
    ∀ n, 1 ≤ n → (∀ x ∈ lis, 1 ≤ (digitsToNat x.data).getD 1) →
      1 ≤ pageCountScan n lis := by
  induction lis with
  | nil => intro n hn _; simpa [pageCountScan] using hn
  | cons t ts ih =>
    intro n hn hall
    have h1 : 1 ≤ (match digitsToNat t.data with | some v => v | none => n) := by
      cases h : digitsToNat t.data with
      | none => exact hn
      | some v =>
        have h2 := hall t (List.mem_cons_self t ts)
        rw [h] at h2
        simpa using h2
    have h3 := ih _ h1 (fun x hx => hall x (List.mem_cons_of_mem t hx))
    simpa [pageCountScan] using h3

/-- Each entry kind satisfies exactly one of the three filters, so the
three filtered lists cover the list with lengths summing to its length. -/
theorem entry_filter_length (l : List Entry) :
    (l.filter Entry.isWork).length + (l.filter Entry.isSeries).length +
      (l.filter Entry.isUser).length = l.length := by
  induction l with
  | nil => rfl
  | cons e es ih =>
    cases e <;>
      simp [List.filter_cons, Entry.isWork, Entry.isSeries, Entry.isUser] <;> omega

/-- Claim C5: refresh_auth_token fetches the token from the session user's
own profile URL (which contains the username) when the session is
authenticated and from the anonymous landing URL for a guest session, and
raises UnexpectedResponseError when the fetched page carries no
authenticity-token field. -/
theorem c5_refresh_auth_token_url_and_error (site : String → TokenResponse)
    (s : SessionState) :
    (s.is_authed = true →
      refresh_url s = String.append ("https://archiveofourown.org/users/") s.username) ∧
    (s.is_authed = false → refresh_url s = ("https://archiveofourown.org")) ∧
    ((site (refresh_url s)).status ≠ 429 → (site (refresh_url s)).token = none →
      refresh_auth_token site s = Except.error Err.unexpectedResponseError) := by
  refine ⟨fun h => by simp [refresh_url, h], fun h => by simp [refresh_url, h],
    fun h1 h2 => ?_⟩
  simp [refresh_auth_token, h1, h2]

theorem c5_witness :
    refresh_auth_token tokenSiteNone baseState = Except.error Err.unexpectedResponseError :=
  (c5_refresh_auth_token_url_and_error tokenSiteNone baseState).2.2 (by decide) rfl

/-- Claim C8 counterexample: when the fetched login page has no
authenticity-token field, Session.__init__ subscripts the None returned by
soup.find and raises TypeError, not UnexpectedResponseError. -/
theorem c8_counterexample :
    session_init ("u") ("pw") 200 none 302 = Except.error Err.typeError ∧
    session_init ("u") ("pw") 200 none 302 ≠ Except.error Err.unexpectedResponseError := by
  constructor
  · rfl
  · intro h
    simp [session_init] at h

/-- Claim C8 amended: when the fetched login page (itself not rate
limited) has no authenticity-token field, login fails with the TypeError
from subscripting the missing element, regardless of the POST status. -/
theorem c8_missing_token_raises_type_error (username pw : String) (lps ps : Nat)
    (h : lps ≠ 429) :
    session_init username pw lps none ps = Except.error Err.typeError := by
  unfold session_init
  rw [if_neg (by simp [h])]

theorem c8_witness :
    session_init ("u2") ("pw") 200 none 200 = Except.error Err.typeError :=
  c8_missing_token_raises_type_error ("u2") ("pw") 200 200 (by decide)

/-- Claim C1 counterexample: a login POST answered with status 429 raises
the rate-limit HTTPError, not LoginError, so it is not the case that every
non-302 POST status raises LoginError. -/
theorem c1_counterexample :
    session_init ("u") ("pw") 200 (some ("t")) 429 = Except.error Err.httpError ∧
    session_init ("u") ("pw") 200 (some ("t")) 429 ≠ Except.error Err.loginError := by
  constructor
  · rfl
  · intro h
    simp [session_init] at h

/-- Claim C1 amended: with the login page fetched successfully and its
token present, login succeeds exactly when the POST status is 302, in
which case the session is authenticated and holds the non-null parsed
token; every other POST status except 429 raises LoginError, and 429
raises the rate-limit HTTPError instead. -/
theorem c1_login_success_iff_302 (username pw tok : String) (lps ps : Nat)
    (hlps : lps ≠ 429) :
    (ps = 302 →
      session_init username pw lps (some tok) ps = Except.ok (authedState username tok)) ∧
    (authedState username tok).is_authed = true ∧
    (authedState username tok).authenticity_token = some tok ∧
    (∀ st, session_init username pw lps (some tok) ps = Except.ok st → ps = 302) ∧
    (ps ≠ 302 → ps ≠ 429 →
      session_init username pw lps (some tok) ps = Except.error Err.loginError) ∧
    (ps = 429 → session_init username pw lps (some tok) ps = Except.error Err.httpError) := by
  have hB : (lps == 429) = false := by simp [hlps]
  refine ⟨?_, rfl, rfl, ?_, ?_, ?_⟩
  · intro h
    simp [session_init, hB, h]
  · intro st h
    by_contra hne
    rcases eq_or_ne ps 429 with h429 | h429
    · simp [session_init, hB, h429] at h
    · simp [session_init, hB, hne, h429] at h
  · intro hne h429
    simp [session_init, hB, hne, h429]
  · intro h429
    simp [session_init, hB, h429]

theorem c1_witness :
    session_init ("u") ("pw") 200 (some ("t")) 302 = Except.ok (authedState ("u") ("t")) :=
  (c1_login_success_iff_302 ("u") ("pw") ("t") 200 302 (by decide)).1 rfl

/-- Claim C7 counterexample: a pagination control whose single li text is
the digit 0 makes the page-count resolver report 0, which is below 1. -/
theorem c7_counterexample :
    (resolve_subscription_pages siteZero baseState).1 = Except.ok 0 ∧ ¬ (1 ≤ 0) := by
  exact ⟨rfl, by decide⟩

/-- Claim C7 amended: the resolved page count is exactly 1 when the first
page has no pagination control; it is at least 1 provided every all-digit
li text of the control has a positive value (an all-digit text reading 0
is the only way the scan can go below 1); both resolvers report the scan
of the fetched first page. -/
theorem c7_page_count_amended (lis : List String) (site : Nat → PageResponse)
    (s t : SessionState)
    (hpos : ∀ x ∈ lis, 1 ≤ (digitsToNat x.data).getD 1)
    (hs : s.subscription_pages_cache = none) (ht : t.bookmark_pages_cache = none)
    (hst : (site 1).status ≠ 429) :
    pageCountOf none = 1 ∧
    1 ≤ pageCountOf (some lis) ∧
    (resolve_subscription_pages site s).1 = Except.ok (pageCountOf (site 1).pagination) ∧
    (resolve_bookmark_pages site t).1 = Except.ok (pageCountOf (site 1).pagination) := by
  refine ⟨rfl, pageCountScan_pos lis 1 le_rfl hpos, ?_, ?_⟩
  · simp [resolve_subscription_pages, hs, hst]
  · simp [resolve_bookmark_pages, ht, hst]

theorem c7_witness :
    (resolve_subscription_pages siteSub baseState).1 =
      Except.ok (pageCountOf (siteSub 1).pagination) :=
  (c7_page_count_amended ["2"] siteSub baseState baseState (by decide) rfl rfl
    (by decide)).2.2.1

/-- Claim C10: for a session whose subscriptions are loaded, the three
filtered getters partition get_subscriptions: each returns exactly the
Work, Series and User elements in order (a sublist of the aggregate),
every element satisfies exactly one of the three kind predicates, and the
three lengths sum to the aggregate length. -/
theorem c10_getters_partition (site : Nat → PageResponse) (s : SessionState)
    (subs : List Entry) (h : s.subscriptions_attr = some subs) :
    (get_subscriptions site s).1 = Except.ok subs ∧
    (get_work_subscriptions site s).1 = Except.ok (subs.filter Entry.isWork) ∧
    (get_series_subscriptions site s).1 = Except.ok (subs.filter Entry.isSeries) ∧
    (get_user_subscriptions site s).1 = Except.ok (subs.filter Entry.isUser) ∧
    (subs.filter Entry.isWork).Sublist subs ∧
    (subs.filter Entry.isSeries).Sublist subs ∧
    (subs.filter Entry.isUser).Sublist subs ∧
    (subs.filter Entry.isWork).length + (subs.filter Entry.isSeries).length +
      (subs.filter Entry.isUser).length = subs.length ∧
    (∀ e ∈ subs,
      (e.isWork = true ∧ e.isSeries = false ∧ e.isUser = false) ∨
      (e.isWork = false ∧ e.isSeries = true ∧ e.isUser = false) ∨
      (e.isWork = false ∧ e.isSeries = false ∧ e.isUser = true)) := by
  have hg : get_subscriptions site s = (Except.ok subs, s, []) := by
    simp [get_subscriptions, h]
  refine ⟨by simp [hg], ?_, ?_, ?_, List.filter_sublist subs, List.filter_sublist subs,
    List.filter_sublist subs, entry_filter_length subs, ?_⟩
  · simp [get_work_subscriptions, hg]
  · simp [get_series_subscriptions, hg]
  · simp [get_user_subscriptions, hg]
  · intro e _
    cases e <;> simp [Entry.isWork, Entry.isSeries, Entry.isUser]

theorem c10_witness :
    (get_work_subscriptions siteSub loadedState).1 =
      Except.ok ((loadedState.subscriptions_attr.getD []).filter Entry.isWork) :=
  (c10_getters_partition siteSub loadedState (loadedState.subscriptions_attr.getD [])
    rfl).2.1
/-- Over a page whose dt scans all succeed, the subscription loop appends
exactly one entry per dt, in order, with no error. -/
theorem processDts_ok (dts : List Dt) :
    ∀ cur, (∀ dt ∈ dts, (scanAnchors initScan dt).isOk = true) →
      processDts cur dts = (none, cur ++ dts.map emitOf) := by
  induction dts with
  | nil => intro cur _; simp [processDts]
  | cons dt rest ih =>
    intro cur hok
    have h1 := hok dt (List.mem_cons_self dt rest)
    cases h : scanAnchors initScan dt with
    | error e =>
      rw [h] at h1
      simp [Except.isOk, Except.toBool] at h1
    | ok st =>
      have h2 : emitOf dt = emitEntry st := by simp [emitOf, h]
      have h3 := ih (cur ++ [emitEntry st]) (fun d hd => hok d (List.mem_cons_of_mem dt hd))
      simp [processDts, h, h3, h2]

/-- The NameError outcome of the bookmark blurb loop does not depend on
the aggregate it deduplicates against. -/
theorem processLis_error_agnostic (lis : List Dt) :
    ∀ cur cur2 wid wn, (processLis cur wid wn lis).1 = (processLis cur2 wid wn lis).1 := by
  induction lis with
  | nil => intro cur cur2 wid wn; rfl
  | cons li rest ih =>
    intro cur cur2 wid wn
    simp only [processLis]
    set A := scanBkAnchors { workid := wid, workname := wn, authors := [] } li with hA
    cases h : A.workid with
    | none => rfl
    | some w =>
      cases hc : cur.any (entryEq (Entry.work (some w) A.workname A.authors)) <;>
        cases hc2 : cur2.any (entryEq (Entry.work (some w) A.workname A.authors)) <;>
          simp [hc, hc2] <;> apply ih

/-- Unfolding equation of the blurb loop when the scanned blurb leaves the
work id unassigned: NameError, aggregate unchanged. -/
theorem processLis_cons_none (cur : List Entry) (wid : Option Nat) (wn : Option String)
    (li : Dt) (lis : List Dt)
    (h : (scanBkAnchors { workid := wid, workname := wn, authors := [] } li).workid = none) :
    processLis cur wid wn (li :: lis) = (some Err.nameError, cur, 0) := by
  simp only [processLis]
  rw [h]

/-- Unfolding equation of the blurb loop when the scanned blurb carries a
work id: dedup check, then recursion with the carried locals. -/
theorem processLis_cons_some (cur : List Entry) (wid : Option Nat) (wn : Option String)
    (li : Dt) (lis : List Dt) (w : Nat)
    (h : (scanBkAnchors { workid := wid, workname := wn, authors := [] } li).workid = some w) :
    processLis cur wid wn (li :: lis) =
      (if cur.any (entryEq (Entry.work (some w)
          (scanBkAnchors { workid := wid, workname := wn, authors := [] } li).workname
          (scanBkAnchors { workid := wid, workname := wn, authors := [] } li).authors)) then
        ((processLis cur (some w)
            (scanBkAnchors { workid := wid, workname := wn, authors := [] } li).workname lis).1,
         (processLis cur (some w)
            (scanBkAnchors { workid := wid, workname := wn, authors := [] } li).workname lis).2.1,
         (processLis cur (some w)
            (scanBkAnchors { workid := wid, workname := wn, authors := [] } li).workname lis).2.2 + 1)
       else
        processLis (cur ++ [Entry.work (some w)
            (scanBkAnchors { workid := wid, workname := wn, authors := [] } li).workname
            (scanBkAnchors { workid := wid, workname := wn, authors := [] } li).authors])
          (some w)
          (scanBkAnchors { workid := wid, workname := wn, authors := [] } li).workname lis) := by
  simp only [processLis]
  rw [h]

/-- When the bookmark blurb loop finishes a page without NameError, each
blurb either grew the aggregate by one entry or was counted as a dedup
skip. -/
theorem processLis_len (lis : List Dt) :
    ∀ cur wid wn, (processLis cur wid wn lis).1 = none →
      (processLis cur wid wn lis).2.1.length + (processLis cur wid wn lis).2.2 =
        cur.length + lis.length := by
  induction lis with
  | nil => intro cur wid wn _; simp [processLis]
  | cons li rest ih =>
    intro cur wid wn hnone
    cases h : (scanBkAnchors { workid := wid, workname := wn, authors := [] } li).workid with
    | none =>
      rw [processLis_cons_none cur wid wn li rest h] at hnone
      simp at hnone
    | some w =>
      rw [processLis_cons_some cur wid wn li rest w h] at hnone ⊢
      set A := scanBkAnchors { workid := wid, workname := wn, authors := [] } li with hA
      by_cases hc : cur.any (entryEq (Entry.work (some w) A.workname A.authors)) = true
      · rw [if_pos hc] at hnone ⊢
        dsimp only at hnone ⊢
        have h4 := ih cur (some w) A.workname hnone
        simp only [List.length_cons]
        omega
      · rw [if_neg hc] at hnone ⊢
        have h4 := ih (cur ++ [Entry.work (some w) A.workname A.authors]) (some w)
          A.workname hnone
        rw [h4]
        simp only [List.length_append, List.length_cons, List.length_nil]
        omega

/-- Every entry the bookmark blurb loop adds to the aggregate is a Work
with a non-null work id. -/
theorem processLis_mem (lis : List Dt) :
    ∀ cur wid wn e, e ∈ (processLis cur wid wn lis).2.1 →
      e ∈ cur ∨ e.hasIdentity = true := by
  induction lis with
  | nil => intro cur wid wn e he; exact Or.inl he
  | cons li rest ih =>
    intro cur wid wn e he
    cases h : (scanBkAnchors { workid := wid, workname := wn, authors := [] } li).workid with
    | none =>
      rw [processLis_cons_none cur wid wn li rest h] at he
      exact Or.inl he
    | some w =>
      rw [processLis_cons_some cur wid wn li rest w h] at he
      set A := scanBkAnchors { workid := wid, workname := wn, authors := [] } li with hA
      by_cases hc : cur.any (entryEq (Entry.work (some w) A.workname A.authors)) = true
      · rw [if_pos hc] at he
        dsimp only at he
        exact ih cur (some w) A.workname e he
      · rw [if_neg hc] at he
        rcases ih _ (some w) A.workname e he with hin | hid
        · rcases List.mem_append.mp hin with hin2 | hin2
          · exact Or.inl hin2
          · rcases List.mem_singleton.mp hin2 with rfl
            exact Or.inr rfl
        · exact Or.inr hid

/-- A rel-bearing anchor never changes the classification or the recorded
work id. -/
theorem scanAnchor_rel_keeps (st st1 : SubScan) (a : Anchor) (hrel : a.hasRel = true)
    (h : scanAnchor st a = Except.ok st1) : st1.kind = st.kind ∧ st1.workid = st.workid := by
  unfold scanAnchor at h
  rw [if_pos hrel] at h
  by_cases h1 : a.relAuthor = true
  · rw [if_pos h1] at h
    injection h with h2
    subst h2
    exact ⟨rfl, rfl⟩
  · rw [if_neg h1] at h
    injection h with h2
    subst h2
    exact ⟨rfl, rfl⟩

/-- After a non-rel anchor is processed the scan state is good: the
anchor either records a work id or switches the classification to user or
series. -/
theorem scanAnchor_nonrel_good (st st1 : SubScan) (a : Anchor) (hrel : a.hasRel = false)
    (h : scanAnchor st a = Except.ok st1) : goodScan st1 = true := by
  unfold scanAnchor at h
  rw [if_neg (by simp [hrel])] at h
  by_cases h1 : strStartsWith a.href ("/works") = true
  · rw [if_pos h1] at h
    injection h with h2
    subst h2
    cases hk : st.kind <;> simp [goodScan, hk]
  · rw [if_neg h1] at h
    by_cases h2 : strStartsWith a.href ("/users") = true
    · rw [if_pos h2] at h
      injection h with h3
      subst h3
      simp [goodScan]
    · rw [if_neg h2] at h
      cases hio : intOfChars (lastSegment a.href) with
      | none => rw [hio] at h; cases h
      | some k =>
        rw [hio] at h
        injection h with h3
        subst h3
        simp [goodScan]

/-- A successful dt scan that saw at least one non-rel anchor, or that
started from a good state, ends in a good state. -/
theorem scanAnchors_good (anchors : List Anchor) :
    ∀ st st2, scanAnchors st anchors = Except.ok st2 →
      (goodScan st = true ∨ ∃ a ∈ anchors, a.hasRel = false) → goodScan st2 = true := by
  induction anchors with
  | nil =>
    intro st st2 hok hd
    simp only [scanAnchors] at hok
    injection hok with h2
    subst h2
    rcases hd with hg | ⟨a, ha, _⟩
    · exact hg
    · cases ha
  | cons a rest ih =>
    intro st st2 hok hd
    simp only [scanAnchors] at hok
    cases hsa : scanAnchor st a with
    | error er => rw [hsa] at hok; cases hok
    | ok st1 =>
      rw [hsa] at hok
      apply ih st1 st2 hok
      cases hrel : a.hasRel with
      | false => exact Or.inl (scanAnchor_nonrel_good st st1 a hrel hsa)
      | true =>
        rcases hd with hg | ⟨a0, ha0, h0⟩
        · have hk := scanAnchor_rel_keeps st st1 a hrel hsa
          left
          unfold goodScan
          rw [hk.1, hk.2]
          exact hg
        · rcases List.mem_cons.mp ha0 with rfl | hmem
          · rw [hrel] at h0; cases h0
          · exact Or.inr ⟨a0, hmem, h0⟩

/-- A good scan state emits an entry whose identity field is set. -/
theorem emitEntry_identity (st : SubScan) (h : goodScan st = true) :
    (emitEntry st).hasIdentity = true := by
  cases hk : st.kind with
  | work =>
    simp only [goodScan, hk] at h
    simp [emitEntry, hk, Entry.hasIdentity, h]
  | user u => simp [emitEntry, hk, Entry.hasIdentity]
  | series sid => simp [emitEntry, hk, Entry.hasIdentity]

/-- Entries appended by the subscription loop have their identity field
set as long as each dt carries at least one non-rel link. -/
theorem processDts_identity (dts : List Dt) :
    ∀ cur, (∀ dt ∈ dts, ∃ a ∈ dt, a.hasRel = false) →
      ∀ e ∈ (processDts cur dts).2, e ∈ cur ∨ e.hasIdentity = true := by
  induction dts with
  | nil => intro cur _ e he; exact Or.inl he
  | cons dt rest ih =>
    intro cur hlinks e he
    simp only [processDts] at he
    cases h : scanAnchors initScan dt with
    | error er => rw [h] at he; exact Or.inl he
    | ok st =>
      rw [h] at he
      have hg : goodScan st = true :=
        scanAnchors_good dt initScan st h (Or.inr (hlinks dt (List.mem_cons_self dt rest)))
      rcases ih (cur ++ [emitEntry st]) (fun d hd => hlinks d (List.mem_cons_of_mem dt hd)) e he
        with hin | hid
      · rcases List.mem_append.mp hin with h1 | h1
        · exact Or.inl h1
        · rcases List.mem_singleton.mp h1 with rfl
          exact Or.inr (emitEntry_identity st hg)
      · exact Or.inr hid

/-- Claim C4: the bookmark blurb loop does not append an entry whose
identity equals one already in the aggregate (it only counts a dedup
skip), while the subscription loop appends one entry per dt with no dedup
check, so a repeated subscription entry appears once per occurrence
(occurrence counts add across the appended page). -/
theorem c4_dedup_asymmetry (cur cur2 : List Entry) (wid : Option Nat) (wn : Option String)
    (li : Dt) (lis dts : List Dt) (w : Nat)
    (h : (scanBkAnchors { workid := wid, workname := wn, authors := [] } li).workid = some w)
    (hdup : cur.any (entryEq (Entry.work (some w)
        (scanBkAnchors { workid := wid, workname := wn, authors := [] } li).workname
        (scanBkAnchors { workid := wid, workname := wn, authors := [] } li).authors)) = true)
    (hok : ∀ dt ∈ dts, (scanAnchors initScan dt).isOk = true) :
    (processLis cur wid wn (li :: lis)).2.1 =
      (processLis cur (some w)
        (scanBkAnchors { workid := wid, workname := wn, authors := [] } li).workname lis).2.1 ∧
    (processLis cur wid wn (li :: lis)).2.2 =
      (processLis cur (some w)
        (scanBkAnchors { workid := wid, workname := wn, authors := [] } li).workname lis).2.2 + 1 ∧
    processDts cur2 dts = (none, cur2 ++ dts.map emitOf) ∧
    (∀ e : Entry, ((processDts cur2 dts).2.countP (entryEq e)) =
      cur2.countP (entryEq e) + (dts.map emitOf).countP (entryEq e)) := by
  rw [processLis_cons_some cur wid wn li lis w h, if_pos hdup]
  refine ⟨rfl, rfl, processDts_ok dts cur2 hok, fun e => ?_⟩
  rw [processDts_ok dts cur2 hok]
  exact List.countP_append _ _ _

theorem c4_witness :
    processDts [] [[aWork], [aWork]] = (none, [] ++ [[aWork], [aWork]].map emitOf) :=
  (c4_dedup_asymmetry [Entry.work (some 123) (some ("T")) []] [] none none [aWork] []
    [[aWork], [aWork]] 123 (by decide) (by decide) (by decide)).2.2.1

/-- Claim C9 counterexample: a subscription page containing a dt with no
anchors at all is aggregated as a Work reference whose identity field is
None. -/
theorem c9_counterexample :
    (load_subscriptions_page siteEmptyDt stateEmptySubs 1).2.subscriptions_attr =
      some [Entry.work none none []] ∧
    Entry.hasIdentity (Entry.work none none []) = false := by
  exact ⟨rfl, rfl⟩

/-- Claim C9 amended: every entry the bookmark aggregation appends has a
non-null identity; a subscription entry has its identity set provided its
dt contains at least one non-author (non-rel) link; a dt with no such
link is aggregated as a Work reference with a null identity. -/
theorem c9_identity_fields (cur cur2 : List Entry) (dts lis : List Dt)
    (wid : Option Nat) (wn : Option String)
    (hlinks : ∀ dt ∈ dts, ∃ a ∈ dt, a.hasRel = false) :
    (∀ e ∈ (processDts cur dts).2, e ∈ cur ∨ e.hasIdentity = true) ∧
    (∀ e ∈ (processLis cur2 wid wn lis).2.1, e ∈ cur2 ∨ e.hasIdentity = true) :=
  ⟨processDts_identity dts cur hlinks, processLis_mem lis cur2 wid wn⟩

theorem c9_witness :
    Entry.work (some 123) (some ("T")) ["Bob"] ∈ ([] : List Entry) ∨
      (Entry.work (some 123) (some ("T")) ["Bob"]).hasIdentity = true :=
  (c9_identity_fields [] [] [[aWork, aAuthor]] [] none none (by decide)).1
    (Entry.work (some 123) (some ("T")) ["Bob"]) (by decide)

/-- Generic success run of the sequential page loop: with an invariant I
preserved by the per-page step and every page in range satisfying P, the
loop fetches exactly the pages of the range, in order, folding the step. -/
theorem loadPages_ok_of (load : SessionState → Nat → Option Err × SessionState)
    (step : SessionState → Nat → SessionState) (P : Nat → Prop) (I : SessionState → Prop)
    (hload : ∀ s p, I s → P p → load s p = (none, step s p))
    (hstep : ∀ s p, I s → P p → I (step s p)) :
    ∀ count start s, I s → (∀ p ∈ List.range' start count, P p) →
      loadPages load s start count =
        (none, List.foldl step s (List.range' start count), List.range' start count) := by
  intro count
  induction count with
  | zero => intro start s _ _; simp [loadPages]
  | succ c ih =>
    intro start s hI hP
    have hp : P start := hP start (by rw [List.range'_succ]; exact List.mem_cons_self _ _)
    have hrec := ih (start + 1) (step s start) (hstep s start hI hp)
      (fun p hp2 => hP p (by rw [List.range'_succ]; exact List.mem_cons_of_mem _ hp2))
    simp only [loadPages, hload s start hI hp, hrec, List.range'_succ, List.foldl_cons]

/-- Generic failing run of the sequential page loop: pages before the
failing index k load fine, the load at k fails leaving the state alone, so
the loop stops at k having fetched each page up to k exactly once. -/
theorem loadPages_fail_at (load : SessionState → Nat → Option Err × SessionState)
    (step : SessionState → Nat → SessionState) (P : Nat → Prop) (I : SessionState → Prop)
    (k : Nat) (e : Err)
    (hload : ∀ s p, I s → P p → load s p = (none, step s p))
    (hstep : ∀ s p, I s → P p → I (step s p))
    (hfail : ∀ s, I s → load s k = (some e, s)) :
    ∀ count start s, I s → start ≤ k → k < start + count →
      (∀ p ∈ List.range' start (k - start), P p) →
      loadPages load s start count =
        (some e, List.foldl step s (List.range' start (k - start)),
          List.range' start (k - start + 1)) := by
  intro count
  induction count with
  | zero => intro start s _ h1 h2 _; omega
  | succ c ih =>
    intro start s hI h1 h2 hP
    rcases eq_or_lt_of_le h1 with rfl | hlt
    · simp only [loadPages, hfail s hI, Nat.sub_self, List.range'_zero, List.foldl_nil]
      rfl
    · have hd : k - start = (k - (start + 1)) + 1 := by omega
      have hp : P start := hP start (by
        rw [hd, List.range'_succ]
        exact List.mem_cons_self _ _)
      have hrec := ih (start + 1) (step s start) (hstep s start hI hp) (by omega) (by omega)
        (fun p hp2 => hP p (by
          rw [hd, List.range'_succ]
          exact List.mem_cons_of_mem _ hp2))
      rw [hd]
      simp only [loadPages, hload s start hI hp, hrec, List.range'_succ, List.foldl_cons]

/-- One subscription page load when the page is well formed: no error, and
the page entries are appended. -/
theorem load_sub_page_ok (site : Nat → PageResponse) (s : SessionState) (p : Nat)
    (hI : s.subscriptions_attr.isSome = true) (hok : subPageOkB (site p) = true) :
    load_subscriptions_page site s p = (none, subStep site s p) := by
  unfold subPageOkB at hok
  simp only [Bool.and_eq_true, bne_iff_ne] at hok
  obtain ⟨⟨hst, hcont⟩, hall⟩ := hok
  unfold load_subscriptions_page
  rw [if_neg (by simp [hst])]
  cases hc : (site p).container with
  | none => rw [hc] at hcont; simp at hcont
  | some dts =>
    cases ha : s.subscriptions_attr with
    | none => rw [ha] at hI; simp at hI
    | some cur =>
      have hdts : ∀ dt ∈ dts, (scanAnchors initScan dt).isOk = true := by
        rw [hc] at hall
        simpa using List.all_eq_true.mp hall
      dsimp only
      rw [processDts_ok dts cur hdts]
      unfold subStep subPageEntries
      simp [hc, ha]

/-- A 429 response makes the subscription page load raise the rate-limit
error before touching the session state. -/
theorem load_sub_page_429 (site : Nat → PageResponse) (s : SessionState) (p : Nat)
    (hf : (site p).status = 429) :
    load_subscriptions_page site s p = (some Err.httpError, s) := by
  unfold load_subscriptions_page
  rw [if_pos (by simp [hf])]

/-- Folding successful subscription steps appends the concatenation of the
page entries. -/
theorem foldl_subStep (site : Nat → PageResponse) (pages : List Nat) :
    ∀ s acc, s.subscriptions_attr = some acc →
      List.foldl (subStep site) s pages =
        { s with subscriptions_attr := some (acc ++ pages.flatMap (subPageEntries site)) } := by
  induction pages with
  | nil =>
    intro s acc h
    simp only [List.foldl_nil, List.flatMap_nil, List.append_nil]
    rw [← h]
  | cons p ps ih =>
    intro s acc h
    simp only [List.foldl_cons, List.flatMap_cons]
    have h2 : (subStep site s p).subscriptions_attr = some (acc ++ subPageEntries site p) := by
      simp [subStep, h]
    rw [ih (subStep site s p) (acc ++ subPageEntries site p) h2]
    simp [subStep, List.append_assoc]

/-- One bookmark page load when the page is well formed: no error, and the
blurb loop output replaces the aggregate. -/
theorem load_bk_page_ok (site : Nat → PageResponse) (s : SessionState) (p : Nat)
    (hI : s.bookmarks_attr.isSome = true) (hok : bkPageOkB (site p) = true) :
    load_bookmarks_page site s p = (none, bkStep site s p) := by
  unfold bkPageOkB at hok
  simp only [Bool.and_eq_true, bne_iff_ne, Option.isNone_iff_eq_none] at hok
  obtain ⟨⟨hst, hcont⟩, herr0⟩ := hok
  unfold load_bookmarks_page
  rw [if_neg (by simp [hst])]
  cases hc : (site p).container with
  | none => rw [hc] at hcont; simp at hcont
  | some lis =>
    cases ha : s.bookmarks_attr with
    | none => rw [ha] at hI; simp at hI
    | some cur =>
      dsimp only
      have herr : (processLis cur none none lis).1 = none := by
        rw [processLis_error_agnostic lis cur []]
        rw [hc] at herr0
        simpa using herr0
      rw [herr]
      unfold bkStep
      simp [hc, ha]

/-- A 429 response makes the bookmark page load raise the rate-limit error
before touching the session state. -/
theorem load_bk_page_429 (site : Nat → PageResponse) (s : SessionState) (p : Nat)
    (hf : (site p).status = 429) :
    load_bookmarks_page site s p = (some Err.httpError, s) := by
  unfold load_bookmarks_page
  rw [if_pos (by simp [hf])]

/-- Folding successful bookmark steps runs the reference bookmark
aggregation. -/
theorem foldl_bkStep (site : Nat → PageResponse) (pages : List Nat) :
    ∀ s acc, s.bookmarks_attr = some acc →
      List.foldl (bkStep site) s pages =
        { s with bookmarks_attr := some (bkRun site pages acc).1 } := by
  induction pages with
  | nil =>
    intro s acc h
    simp only [List.foldl_nil, bkRun]
    rw [← h]
  | cons p ps ih =>
    intro s acc h
    simp only [List.foldl_cons, bkRun]
    have h2 : (bkStep site s p).bookmarks_attr =
        some ((processLis acc none none ((site p).container.getD [])).2.1) := by
      simp [bkStep, h]
    rw [ih (bkStep site s p) _ h2]
    simp [bkStep, h]

/-- The reference bookmark aggregation balance: over well-formed pages the
final aggregate size plus the dedup skips equals the total entry count. -/
theorem bkRun_len (site : Nat → PageResponse) (pages : List Nat) :
    ∀ acc, (∀ p ∈ pages, bkPageOkB (site p) = true) →
      (bkRun site pages acc).1.length + (bkRun site pages acc).2 =
        acc.length + (pages.map (fun p => ((site p).container.getD []).length)).sum := by
  induction pages with
  | nil => intro acc _; simp [bkRun]
  | cons p ps ih =>
    intro acc hok
    have hop := hok p (List.mem_cons_self p ps)
    unfold bkPageOkB at hop
    simp only [Bool.and_eq_true, bne_iff_ne, Option.isNone_iff_eq_none] at hop
    have herr : (processLis acc none none ((site p).container.getD [])).1 = none := by
      rw [processLis_error_agnostic _ acc []]
      exact hop.2
    have hlen := processLis_len ((site p).container.getD []) acc none none herr
    have hrec := ih ((processLis acc none none ((site p).container.getD [])).2.1)
      (fun q hq => hok q (List.mem_cons_of_mem p hq))
    simp only [bkRun, List.map_cons, List.sum_cons]
    omega

/-- Sequential get_subscriptions on a session with no cached list and a
resolved page count n: all pages well formed, so the call fetches pages 1
to n once each and stores their concatenated entries. -/
theorem get_subscriptions_run (site : Nat → PageResponse) (s : SessionState) (n : Nat)
    (h1 : s.subscriptions_attr = none) (h2 : s.subscription_pages_cache = some n)
    (hok : ∀ p ∈ List.range' 1 n, subPageOkB (site p) = true) :
    get_subscriptions site s =
      (Except.ok ((List.range' 1 n).flatMap (subPageEntries site)),
       { s with subscriptions_attr := some ((List.range' 1 n).flatMap (subPageEntries site)) },
       List.range' 1 n) := by
  have hloop := loadPages_ok_of (load_subscriptions_page site) (subStep site)
    (fun p => subPageOkB (site p) = true) (fun st => st.subscriptions_attr.isSome = true)
    (fun st p hI hP => load_sub_page_ok site st p hI hP)
    (fun st p hI hP => by simp [subStep])
    n 1 { s with subscriptions_attr := some [] } (by simp) hok
  have hfold := foldl_subStep site (List.range' 1 n)
    { s with subscriptions_attr := some [] } [] (by simp)
  rw [hfold] at hloop
  have hres : resolve_subscription_pages site { s with subscriptions_attr := some [] } =
      (Except.ok n, { s with subscriptions_attr := some [] }, []) := by
    unfold resolve_subscription_pages
    simp [h2]
  simp only [get_subscriptions, h1]
  rw [hres]
  dsimp only
  rw [hloop]
  simp

/-- Sequential get_subscriptions hitting a 429 on page k of the loop: the
error propagates at once, pages 1..k are fetched once each, the page-count
cache keeps its value, and the list attribute holds the entries of the
pages before k. -/
theorem get_subscriptions_fail (site : Nat → PageResponse) (s : SessionState) (n k : Nat)
    (h1 : s.subscriptions_attr = none) (h2 : s.subscription_pages_cache = some n)
    (hk1 : 1 ≤ k) (hk2 : k ≤ n)
    (hok : ∀ p ∈ List.range' 1 (k - 1), subPageOkB (site p) = true)
    (hf : (site k).status = 429) :
    get_subscriptions site s =
      (Except.error Err.httpError,
       { s with subscriptions_attr := some ((List.range' 1 (k - 1)).flatMap (subPageEntries site)) },
       List.range' 1 k) := by
  have hloop := loadPages_fail_at (load_subscriptions_page site) (subStep site)
    (fun p => subPageOkB (site p) = true) (fun st => st.subscriptions_attr.isSome = true)
    k Err.httpError
    (fun st p hI hP => load_sub_page_ok site st p hI hP)
    (fun st p hI hP => by simp [subStep])
    (fun st hI => load_sub_page_429 site st k hf)
    n 1 { s with subscriptions_attr := some [] } (by simp) hk1 (by omega) hok
  have hfold := foldl_subStep site (List.range' 1 (k - 1))
    { s with subscriptions_attr := some [] } [] (by simp)
  have hkk : k - 1 + 1 = k := by omega
  rw [hkk, hfold] at hloop
  have hres : resolve_subscription_pages site { s with subscriptions_attr := some [] } =
      (Except.ok n, { s with subscriptions_attr := some [] }, []) := by
    unfold resolve_subscription_pages
    simp [h2]
  simp only [get_subscriptions, h1]
  rw [hres]
  dsimp only
  rw [hloop]
  simp

/-- Sequential get_bookmarks on a session with no cached list and a
resolved page count n: the call fetches pages 1 to n once each and stores
the deduplicated aggregate. -/
theorem get_bookmarks_run (site : Nat → PageResponse) (s : SessionState) (n : Nat)
    (h1 : s.bookmarks_attr = none) (h2 : s.bookmark_pages_cache = some n)
    (hok : ∀ p ∈ List.range' 1 n, bkPageOkB (site p) = true) :
    get_bookmarks site s =
      (Except.ok ((bkRun site (List.range' 1 n) []).1),
       { s with bookmarks_attr := some ((bkRun site (List.range' 1 n) []).1) },
       List.range' 1 n) := by
  have hloop := loadPages_ok_of (load_bookmarks_page site) (bkStep site)
    (fun p => bkPageOkB (site p) = true) (fun st => st.bookmarks_attr.isSome = true)
    (fun st p hI hP => load_bk_page_ok site st p hI hP)
    (fun st p hI hP => by simp [bkStep])
    n 1 { s with bookmarks_attr := some [] } (by simp) hok
  have hfold := foldl_bkStep site (List.range' 1 n)
    { s with bookmarks_attr := some [] } [] (by simp)
  rw [hfold] at hloop
  have hres : resolve_bookmark_pages site { s with bookmarks_attr := some [] } =
      (Except.ok n, { s with bookmarks_attr := some [] }, []) := by
    unfold resolve_bookmark_pages
    simp [h2]
  simp only [get_bookmarks, h1]
  rw [hres]
  dsimp only
  rw [hloop]
  simp

/-- Sequential get_bookmarks hitting a 429 on page k of the loop. -/
theorem get_bookmarks_fail (site : Nat → PageResponse) (s : SessionState) (n k : Nat)
    (h1 : s.bookmarks_attr = none) (h2 : s.bookmark_pages_cache = some n)
    (hk1 : 1 ≤ k) (hk2 : k ≤ n)
    (hok : ∀ p ∈ List.range' 1 (k - 1), bkPageOkB (site p) = true)
    (hf : (site k).status = 429) :
    get_bookmarks site s =
      (Except.error Err.httpError,
       { s with bookmarks_attr := some ((bkRun site (List.range' 1 (k - 1)) []).1) },
       List.range' 1 k) := by
  have hloop := loadPages_fail_at (load_bookmarks_page site) (bkStep site)
    (fun p => bkPageOkB (site p) = true) (fun st => st.bookmarks_attr.isSome = true)
    k Err.httpError
    (fun st p hI hP => load_bk_page_ok site st p hI hP)
    (fun st p hI hP => by simp [bkStep])
    (fun st hI => load_bk_page_429 site st k hf)
    n 1 { s with bookmarks_attr := some [] } (by simp) hk1 (by omega) hok
  have hfold := foldl_bkStep site (List.range' 1 (k - 1))
    { s with bookmarks_attr := some [] } [] (by simp)
  have hkk : k - 1 + 1 = k := by omega
  rw [hkk, hfold] at hloop
  have hres : resolve_bookmark_pages site { s with bookmarks_attr := some [] } =
      (Except.ok n, { s with bookmarks_attr := some [] }, []) := by
    unfold resolve_bookmark_pages
    simp [h2]
  simp only [get_bookmarks, h1]
  rw [hres]
  dsimp only
  rw [hloop]
  simp

/-- Sequential get_subscriptions on a fully fresh session (no cached list,
no cached page count): the first page is fetched once for the page count,
then the pages are fetched; the result is determined by the site alone. -/
theorem get_subscriptions_fresh (site : Nat → PageResponse) (s : SessionState)
    (h1 : s.subscriptions_attr = none) (h2 : s.subscription_pages_cache = none)
    (h3 : (site 1).status ≠ 429)
    (hok : ∀ p ∈ List.range' 1 (pageCountOf (site 1).pagination), subPageOkB (site p) = true) :
    get_subscriptions site s =
      (Except.ok ((List.range' 1 (pageCountOf (site 1).pagination)).flatMap (subPageEntries site)),
       { s with subscription_pages_cache := some (pageCountOf (site 1).pagination), subscriptions_attr := some ((List.range' 1 (pageCountOf (site 1).pagination)).flatMap (subPageEntries site)) },
       1 :: List.range' 1 (pageCountOf (site 1).pagination)) := by
  have hres : resolve_subscription_pages site { s with subscriptions_attr := some [] } =
      (Except.ok (pageCountOf (site 1).pagination),
       { s with subscriptions_attr := some [], subscription_pages_cache := some (pageCountOf (site 1).pagination) },
       [1]) := by
    unfold resolve_subscription_pages
    simp [h2, h3]
  have hloop := loadPages_ok_of (load_subscriptions_page site) (subStep site)
    (fun p => subPageOkB (site p) = true) (fun st => st.subscriptions_attr.isSome = true)
    (fun st p hI hP => load_sub_page_ok site st p hI hP)
    (fun st p hI hP => by simp [subStep])
    (pageCountOf (site 1).pagination) 1
    { s with subscriptions_attr := some [], subscription_pages_cache := some (pageCountOf (site 1).pagination) }
    (by simp) hok
  have hfold := foldl_subStep site (List.range' 1 (pageCountOf (site 1).pagination))
    { s with subscriptions_attr := some [], subscription_pages_cache := some (pageCountOf (site 1).pagination) }
    [] (by simp)
  rw [hfold] at hloop
  simp only [get_subscriptions, h1]
  rw [hres]
  dsimp only
  rw [hloop]
  simp

/-- Sequential get_bookmarks on a fully fresh session. -/
theorem get_bookmarks_fresh (site : Nat → PageResponse) (s : SessionState)
    (h1 : s.bookmarks_attr = none) (h2 : s.bookmark_pages_cache = none)
    (h3 : (site 1).status ≠ 429)
    (hok : ∀ p ∈ List.range' 1 (pageCountOf (site 1).pagination), bkPageOkB (site p) = true) :
    get_bookmarks site s =
      (Except.ok ((bkRun site (List.range' 1 (pageCountOf (site 1).pagination)) []).1),
       { s with bookmark_pages_cache := some (pageCountOf (site 1).pagination), bookmarks_attr := some ((bkRun site (List.range' 1 (pageCountOf (site 1).pagination)) []).1) },
       1 :: List.range' 1 (pageCountOf (site 1).pagination)) := by
  have hres : resolve_bookmark_pages site { s with bookmarks_attr := some [] } =
      (Except.ok (pageCountOf (site 1).pagination),
       { s with bookmarks_attr := some [], bookmark_pages_cache := some (pageCountOf (site 1).pagination) },
       [1]) := by
    unfold resolve_bookmark_pages
    simp [h2, h3]
  have hloop := loadPages_ok_of (load_bookmarks_page site) (bkStep site)
    (fun p => bkPageOkB (site p) = true) (fun st => st.bookmarks_attr.isSome = true)
    (fun st p hI hP => load_bk_page_ok site st p hI hP)
    (fun st p hI hP => by simp [bkStep])
    (pageCountOf (site 1).pagination) 1
    { s with bookmarks_attr := some [], bookmark_pages_cache := some (pageCountOf (site 1).pagination) }
    (by simp) hok
  have hfold := foldl_bkStep site (List.range' 1 (pageCountOf (site 1).pagination))
    { s with bookmarks_attr := some [], bookmark_pages_cache := some (pageCountOf (site 1).pagination) }
    [] (by simp)
  rw [hfold] at hloop
  simp only [get_bookmarks, h1]
  rw [hres]
  dsimp only
  rw [hloop]
  simp

/-- Claim C2 counterexample: with no cached list and no cached page count,
a 429 on the very first fetch propagates at once after a single fetch
([1] is the whole trace), but the session state is not unchanged from
before the call: the subscriptions list attribute has been reset from
None to the empty list. -/
theorem c2_counterexample :
    get_subscriptions siteRate baseState =
      (Except.error Err.httpError, { baseState with subscriptions_attr := some [] }, [1]) ∧
    { baseState with subscriptions_attr := some [] } ≠ baseState := by
  refine ⟨rfl, by decide⟩

/-- Claim C2 amended: a 429 during sequential aggregation raises the
rate-limit error immediately: the failing page k is fetched exactly once
(the duplicate-free trace is 1..k), nothing is retried, no later page is
fetched, and the memoized page-count cache is unchanged; but the
aggregate list field does not keep its prior absent value: it was reset
to the empty list at the start of the call and holds the entries of the
pages processed before the failure. -/
theorem c2_rate_limit_immediate (site bsite : Nat → PageResponse)
    (s t : SessionState) (n m k j : Nat)
    (hs1 : s.subscriptions_attr = none) (hs2 : s.subscription_pages_cache = some n)
    (hk1 : 1 ≤ k) (hk2 : k ≤ n)
    (hsok : ∀ p ∈ List.range' 1 (k - 1), subPageOkB (site p) = true)
    (hsf : (site k).status = 429)
    (ht1 : t.bookmarks_attr = none) (ht2 : t.bookmark_pages_cache = some m)
    (hj1 : 1 ≤ j) (hj2 : j ≤ m)
    (htok : ∀ p ∈ List.range' 1 (j - 1), bkPageOkB (bsite p) = true)
    (htf : (bsite j).status = 429) :
    (get_subscriptions site s).1 = Except.error Err.httpError ∧
    (get_subscriptions site s).2.2 = List.range' 1 k ∧
    (List.range' 1 k).Nodup ∧
    (get_subscriptions site s).2.1.subscription_pages_cache = some n ∧
    (get_subscriptions site s).2.1.subscriptions_attr =
      some ((List.range' 1 (k - 1)).flatMap (subPageEntries site)) ∧
    (get_bookmarks bsite t).1 = Except.error Err.httpError ∧
    (get_bookmarks bsite t).2.2 = List.range' 1 j ∧
    (get_bookmarks bsite t).2.1.bookmark_pages_cache = some m ∧
    (get_bookmarks bsite t).2.1.bookmarks_attr =
      some ((bkRun bsite (List.range' 1 (j - 1)) []).1) := by
  have hS := get_subscriptions_fail site s n k hs1 hs2 hk1 hk2 hsok hsf
  have hB := get_bookmarks_fail bsite t m j ht1 ht2 hj1 hj2 htok htf
  rw [hS, hB]
  exact ⟨rfl, rfl, List.nodup_range' 1 k, hs2, rfl, rfl, rfl, ht2, rfl⟩

theorem c2_witness :
    (get_subscriptions siteRate (subReady 1)).1 = Except.error Err.httpError :=
  (c2_rate_limit_immediate siteRate siteRate (subReady 1) (bkReady 1) 1 1 1 1
    rfl rfl (by decide) (by decide) (by decide) rfl
    rfl rfl (by decide) (by decide) (by decide) rfl).1

/-- Claim C3: with the page-count resolver reporting n (n at least 1) and
every listing page well formed, sequential aggregation fetches exactly
the listing pages 1..n, once each (the trace is the duplicate-free list
1..n and each index counts once), and the aggregate size equals the sum
of the per-page entry counts, less the dedup skips in the bookmark
case. -/
theorem c3_sequential_aggregation (site bsite : Nat → PageResponse)
    (s t : SessionState) (n m : Nat) (_hn : 1 ≤ n) (_hm : 1 ≤ m)
    (hs1 : s.subscriptions_attr = none) (hs2 : s.subscription_pages_cache = some n)
    (hsok : ∀ p ∈ List.range' 1 n, subPageOkB (site p) = true)
    (ht1 : t.bookmarks_attr = none) (ht2 : t.bookmark_pages_cache = some m)
    (htok : ∀ p ∈ List.range' 1 m, bkPageOkB (bsite p) = true) :
    (get_subscriptions site s).2.2 = List.range' 1 n ∧
    (∀ p, 1 ≤ p → p ≤ n → ((get_subscriptions site s).2.2.count p = 1)) ∧
    (get_subscriptions site s).1 =
      Except.ok ((List.range' 1 n).flatMap (subPageEntries site)) ∧
    ((List.range' 1 n).flatMap (subPageEntries site)).length =
      ((List.range' 1 n).map (fun p => ((site p).container.getD []).length)).sum ∧
    (get_bookmarks bsite t).2.2 = List.range' 1 m ∧
    (get_bookmarks bsite t).1 = Except.ok ((bkRun bsite (List.range' 1 m) []).1) ∧
    (bkRun bsite (List.range' 1 m) []).1.length + (bkRun bsite (List.range' 1 m) []).2 =
      ((List.range' 1 m).map (fun p => ((bsite p).container.getD []).length)).sum := by
  have hS := get_subscriptions_run site s n hs1 hs2 hsok
  have hB := get_bookmarks_run bsite t m ht1 ht2 htok
  rw [hS, hB]
  refine ⟨rfl, ?_, rfl, ?_, rfl, rfl, ?_⟩
  · intro p hp1 hp2
    exact List.count_eq_one_of_mem (List.nodup_range' 1 n)
      (by rw [List.mem_range'_1]; omega)
  · rw [List.length_flatMap]
    apply congrArg List.sum
    apply List.map_congr_left
    intro p _
    simp [Function.comp_def, subPageEntries]
  · have hbl := bkRun_len bsite (List.range' 1 m) [] htok
    simp only [List.length_nil, Nat.zero_add] at hbl
    exact hbl

theorem c3_witness :
    (get_subscriptions siteSub (subReady 2)).2.2 = List.range' 1 2 :=
  (c3_sequential_aggregation siteSub siteBk (subReady 2) (bkReady 2) 2 2
    (by decide) (by decide) rfl rfl (by decide) rfl rfl (by decide)).1

/-- Claim C6: clear_cache unconditionally drops the three memoized
cached_property values (subscription page count, bookmark page count,
bookmark total count) and resets both list attributes to the absent
state; the next aggregate access then re-fetches (its trace starts with
the page-count fetch of page 1 followed by the listing pages) and its
result is an expression in the site alone, identical whatever the
previous session state was, so no previously cached value is
observable. -/
theorem c6_clear_cache_resets (s u : SessionState) (site bsite : Nat → PageResponse)
    (h3 : (site 1).status ≠ 429) (h4 : (bsite 1).status ≠ 429)
    (hok : ∀ p ∈ List.range' 1 (pageCountOf (site 1).pagination), subPageOkB (site p) = true)
    (hbok : ∀ p ∈ List.range' 1 (pageCountOf (bsite 1).pagination), bkPageOkB (bsite p) = true) :
    (clear_cache s).subscription_pages_cache = none ∧
    (clear_cache s).bookmark_pages_cache = none ∧
    (clear_cache s).bookmarks_count_cache = none ∧
    (clear_cache s).subscriptions_attr = none ∧
    (clear_cache s).bookmarks_attr = none ∧
    (get_subscriptions site (clear_cache s)).2.2 =
      1 :: List.range' 1 (pageCountOf (site 1).pagination) ∧
    (get_subscriptions site (clear_cache s)).1 =
      Except.ok ((List.range' 1 (pageCountOf (site 1).pagination)).flatMap (subPageEntries site)) ∧
    (get_subscriptions site (clear_cache s)).1 = (get_subscriptions site (clear_cache u)).1 ∧
    (get_bookmarks bsite (clear_cache s)).2.2 =
      1 :: List.range' 1 (pageCountOf (bsite 1).pagination) ∧
    (get_bookmarks bsite (clear_cache s)).1 =
      Except.ok ((bkRun bsite (List.range' 1 (pageCountOf (bsite 1).pagination)) []).1) ∧
    (get_bookmarks bsite (clear_cache s)).1 = (get_bookmarks bsite (clear_cache u)).1 := by
  have hSs := get_subscriptions_fresh site (clear_cache s) rfl rfl h3 hok
  have hSu := get_subscriptions_fresh site (clear_cache u) rfl rfl h3 hok
  have hBs := get_bookmarks_fresh bsite (clear_cache s) rfl rfl h4 hbok
  have hBu := get_bookmarks_fresh bsite (clear_cache u) rfl rfl h4 hbok
  rw [hSs, hSu, hBs, hBu]
  exact ⟨rfl, rfl, rfl, rfl, rfl, rfl, rfl, rfl, rfl, rfl, rfl⟩

theorem c6_witness :
    (get_subscriptions siteSub (clear_cache loadedState)).2.2 =
      1 :: List.range' 1 (pageCountOf (siteSub 1).pagination) :=
  (c6_clear_cache_resets loadedState baseState siteSub siteBk (by decide) (by decide)
    (by decide) (by decide)).2.2.2.2.2.1
